import Mathlib

/-
Verification of the barcode inventory tracker (werdl/barcode).

The repository has two components:
* a server holding an item repository keyed by unique integer barcode
  (create / get / list / modify / delete / log); only its README survives
  in the source tree, so the repository operations below are modelled
  from the specification text (each such definition says so);
* a browser client (src/webclient/script.js), present in two variants in
  the source file, embedded below as faithful pure functions describing
  which HTTP request (if any) each entry point emits.
-/

namespace Barcode

/-- Modelled from the spec: an inventory item (spec section 3, DATA MODEL).
`name` is a mutable text label, `barcode` the unique immutable integer key,
`location` free text, `last_seen` an optional epoch-seconds timestamp,
absent (`none`) until the first `log` call.  The server source is missing
from the tree; this structure follows the spec wording and the README's
JSON examples. -/
structure Item where
  name : String
  barcode : Int
  location : String
  last_seen : Option Int
deriving Repr, DecidableEq

/-- Modelled from the spec: the repository state, an in-memory collection
of items in insertion order (spec: "list() ... order unspecified but
stable within a single snapshot (insertion order acceptable)"). -/
abbrev Repo := List Item

/-- Modelled from the spec: the repository error taxonomy relevant to the
operations (spec section 7): `DuplicateKey` for create on an existing
barcode, `NotFound` for operations on an absent barcode. -/
inductive RepoError where
  | DuplicateKey
  | NotFound
deriving Repr, DecidableEq

/-- Whether some item of the repository carries barcode `b`. -/
def hasBarcode (r : Repo) (b : Int) : Bool :=
  r.any (fun i => i.barcode == b)

/-- Replace an item's name and location, keeping barcode and last_seen. -/
def setNameLoc (i : Item) (n l : String) : Item :=
  ⟨n, i.barcode, l, i.last_seen⟩

/-- Set an item's last_seen timestamp, keeping the other fields. -/
def setSeen (i : Item) (t : Int) : Item :=
  ⟨i.name, i.barcode, i.location, some t⟩

/-- Modelled from the spec: create(name, barcode, location) makes a new
item with `last_seen = none`, failing with `DuplicateKey` if the barcode
already exists.  The second component is the post-state; on failure the
repository is unchanged. -/
def create (r : Repo) (n : String) (b : Int) (l : String) :
    Except RepoError Item × Repo :=
  if hasBarcode r b then (.error .DuplicateKey, r)
  else (.ok ⟨n, b, l, none⟩, r ++ [⟨n, b, l, none⟩])

/-- Modelled from the spec: get(barcode) returns the item or fails with
`NotFound`.  Read-only, so no post-state component. -/
def get (r : Repo) (b : Int) : Except RepoError Item :=
  match r.find? (fun i => i.barcode == b) with
  | some i => .ok i
  | none => .error .NotFound

/-- Modelled from the spec: list() produces all items in insertion order. -/
def list (r : Repo) : List Item := r

/-- Modelled from the spec: modify(name, barcode, location) looks up by
barcode, fails with `NotFound` if absent, otherwise replaces name and
location and leaves `last_seen` untouched, returning the updated item.
Under the barcode-uniqueness invariant at most one item matches. -/
def modify (r : Repo) (n : String) (b : Int) (l : String) :
    Except RepoError Item × Repo :=
  match r.find? (fun i => i.barcode == b) with
  | some i =>
      (.ok (setNameLoc i n l),
       r.map (fun j => if j.barcode == b then setNameLoc j n l else j))
  | none => (.error .NotFound, r)

/-- Modelled from the spec: delete(barcode) removes the item, failing with
`NotFound` if absent, and returns the removed item. -/
def delete (r : Repo) (b : Int) : Except RepoError Item × Repo :=
  match r.find? (fun i => i.barcode == b) with
  | some i => (.ok i, r.filter (fun j => !(j.barcode == b)))
  | none => (.error .NotFound, r)

/-- Modelled from the spec: log(barcode) sets `last_seen` to the current
wall-clock time (passed explicitly as `now`), failing with `NotFound` if
the barcode is absent, and returns the updated item. -/
def log (r : Repo) (now : Int) (b : Int) : Except RepoError Item × Repo :=
  match r.find? (fun i => i.barcode == b) with
  | some i =>
      (.ok (setSeen i now),
       r.map (fun j => if j.barcode == b then setSeen j now else j))
  | none => (.error .NotFound, r)

/-- The barcodes of a repository, in item order. -/
def barcodes (r : Repo) : List Int := r.map Item.barcode

/-- One repository operation: the post-state of any create / modify /
delete / log call (failing calls leave the state unchanged, so they are
covered too). -/
inductive Step : Repo → Repo → Prop where
  | ofCreate (r : Repo) (n : String) (b : Int) (l : String) :
      Step r (create r n b l).2
  | ofModify (r : Repo) (n : String) (b : Int) (l : String) :
      Step r (modify r n b l).2
  | ofDelete (r : Repo) (b : Int) : Step r (delete r b).2
  | ofLog (r : Repo) (now : Int) (b : Int) : Step r (log r now b).2

/-- Repository states reachable from the empty repository by any sequence
of operations. -/
inductive Reachable : Repo → Prop where
  | empty : Reachable []
  | step {r r' : Repo} : Reachable r → Step r r' → Reachable r'

/-- Run a list of create requests in order, starting from `r`; `none` if
any create fails. -/
def createAll (r : Repo) : List (String × Int × String) → Option Repo
  | [] => some r
  | req :: rest =>
      match create r req.1 req.2.1 req.2.2 with
      | (.ok _, r') => createAll r' rest
      | (.error _, _) => none

/-- Characters treated as whitespace by the JavaScript `parseInt` trimming
step (ASCII whitespace and line terminators). -/
def jsWhitespace (c : Char) : Bool :=
  c == ' ' || c == '\t' || c == '\n' || c == '\r' || c == '\x0b' || c == '\x0c'

/-- Value of a decimal digit character, `none` otherwise. -/
def decVal (c : Char) : Option Nat :=
  if '0' ≤ c ∧ c ≤ '9' then some (c.toNat - 48) else none

/-- Value of a hexadecimal digit character, `none` otherwise. -/
def hexVal (c : Char) : Option Nat :=
  if '0' ≤ c ∧ c ≤ '9' then some (c.toNat - 48)
  else if 'a' ≤ c ∧ c ≤ 'f' then some (c.toNat - 87)
  else if 'A' ≤ c ∧ c ≤ 'F' then some (c.toNat - 55)
  else none

/-- Accumulate the value of the longest digit prefix onto `acc`, stopping
at the first non-digit (JavaScript `parseInt` ignores trailing garbage). -/
def digitsAcc (dv : Char → Option Nat) (radix : Nat) (acc : Nat) :
    List Char → Nat
  | [] => acc
  | c :: cs =>
      match dv c with
      | some d => digitsAcc dv radix (acc * radix + d) cs
      | none => acc

/-- Parse the longest digit prefix; `none` (NaN) when no digit is present. -/
def parseDigits (dv : Char → Option Nat) (radix : Nat) :
    List Char → Option Nat
  | [] => none
  | c :: cs =>
      match dv c with
      | some d => some (digitsAcc dv radix d cs)
      | none => none

/-- Parse after the optional sign: a `0x`/`0X` prefix selects hexadecimal,
otherwise decimal. -/
def parseIntFrom (sign : Int) : List Char → Option Int
  | '0' :: 'x' :: rest => (parseDigits hexVal 16 rest).map (fun n => sign * n)
  | '0' :: 'X' :: rest => (parseDigits hexVal 16 rest).map (fun n => sign * n)
  | cs => (parseDigits decVal 10 cs).map (fun n => sign * n)

/-- JavaScript `parseInt(s)` (radix argument omitted) on integer inputs:
trim leading whitespace, read an optional sign, detect a hex prefix, then
take the longest digit prefix; `none` models NaN. -/
def jsParseInt (s : String) : Option Int :=
  match s.data.dropWhile jsWhitespace with
  | '-' :: rest => parseIntFrom (-1) rest
  | '+' :: rest => parseIntFrom 1 rest
  | cs => parseIntFrom 1 cs

/-- A JSON scalar as it appears in the request body's barcode field:
either a number or a string (the legacy client variant sends the raw
string). -/
inductive JsonVal where
  | jnum (n : Int)
  | jstr (s : String)
deriving Repr, DecidableEq

/-- The JSON body `{name, barcode, location}` sent by addItem/modifyItem. -/
structure ItemBody where
  name : String
  barcode : JsonVal
  location : String
deriving Repr, DecidableEq

/-- Outcome of a client entry point: an early return with nothing sent, an
uncaught exception thrown before the fetch, or a request sent to `path`
with JSON body `body`. -/
inductive ClientOutcome where
  | rejected
  | threw
  | sent (path : String) (body : ItemBody)
deriving Repr, DecidableEq

/-- addItem of the first script variant (src/webclient/script.js lines
15-30): parseInt the barcode, return early on NaN, otherwise POST /new
with the integer barcode and the location verbatim. -/
def addItem_v1 (name barcode location : String) : ClientOutcome :=
  match jsParseInt barcode with
  | none => .rejected
  | some ib => .sent "/new" ⟨name, .jnum ib, location⟩

/-- actualLocation of the first script variant (src/webclient/script.js
lines 32-45).  The switch maps the shorthand codes to full location names;
its final clause is written `case _:` rather than `default:`, so for any
other value the switch evaluates the undeclared identifier `_` and throws
a ReferenceError, modelled as `none`. -/
def actualLocation (location : String) : Option String :=
  if location = "l" then some "Levi Fox Hall Tech Box"
  else if location = "r" then some "Rig"
  else if location = "d" then some "Drama Studio Tech Box"
  else if location = "s" then some "Storage outside Levi Fox Hall Tech Box"
  else none

/-- modifyItem of the first script variant (src/webclient/script.js lines
48-62): parseInt the barcode, return early on NaN, then POST /modify with
the integer barcode and `actualLocation(location)`; when actualLocation
throws, the exception propagates before any fetch. -/
def modifyItem_v1 (name barcode location : String) : ClientOutcome :=
  match jsParseInt barcode with
  | none => .rejected
  | some ib =>
      match actualLocation location with
      | some loc => .sent "/modify" ⟨name, .jnum ib, loc⟩
      | none => .threw

/-- addItem of the second (legacy) script variant (src/webclient/script.js
lines 228-240): no validation, the barcode argument (a string when called
from the DOM) is sent verbatim. -/
def addItem_v2 (name barcode location : String) : ClientOutcome :=
  .sent "/new" ⟨name, .jstr barcode, location⟩

/-- modifyItem of the second (legacy) script variant (src/webclient/
script.js lines 243-255): no validation, all fields sent verbatim. -/
def modifyItem_v2 (name barcode location : String) : ClientOutcome :=
  .sent "/modify" ⟨name, .jstr barcode, location⟩

/-- Text content of the Last Seen table cell: either the locale rendering
of the date at `ms` milliseconds since the epoch, or the literal 'Never'. -/
inductive LastSeenCell where
  | localeDate (ms : Int)
  | never
deriving Repr, DecidableEq

/-- The Last Seen cell computed by getAllItemsDOM (identical in both
script variants, src/webclient/script.js lines 147-149 and 340-342):
`item.last_seen ? new Date(item.last_seen * 1000).toLocaleString() :
'Never'`.  `last_seen` is an integer or null; a number is truthy exactly
when it is nonzero. -/
def lastSeenCellText (last_seen : Option Int) : LastSeenCell :=
  match last_seen with
  | some t => if t = 0 then .never else .localeDate (t * 1000)
  | none => .never

/-- JavaScript truthiness of the `last_seen` field (null or integer). -/
def jsTruthy (v : Option Int) : Bool :=
  match v with
  | none => false
  | some t => t != 0

theorem hasBarcode_iff (r : Repo) (b : Int) :
    hasBarcode r b = true ↔ ∃ i ∈ r, i.barcode = b := by
  simp [hasBarcode, List.any_eq_true]

theorem hasBarcode_false_iff (r : Repo) (b : Int) :
    hasBarcode r b = false ↔ ∀ i ∈ r, i.barcode ≠ b := by
  rw [← Bool.not_eq_true, hasBarcode_iff]
  simp

theorem find?_eq_none_of_not_hasBarcode {r : Repo} {b : Int}
    (h : hasBarcode r b = false) :
    r.find? (fun i => i.barcode == b) = none := by
  rw [List.find?_eq_none]
  intro i hi
  simpa using (hasBarcode_false_iff r b).1 h i hi

theorem exists_find?_of_hasBarcode {r : Repo} {b : Int}
    (h : hasBarcode r b = true) :
    ∃ i, r.find? (fun j => j.barcode == b) = some i ∧ i.barcode = b := by
  cases hf : r.find? (fun j => j.barcode == b) with
  | some i => exact ⟨i, rfl, by simpa using List.find?_some hf⟩
  | none =>
      rw [List.find?_eq_none] at hf
      obtain ⟨i, hi, hib⟩ := (hasBarcode_iff r b).1 h
      exact absurd (by simpa using hib) (hf i hi)

theorem find?_append_left_none {p : Item → Bool} {l₁ : List Item}
    (l₂ : List Item) (h : l₁.find? p = none) :
    (l₁ ++ l₂).find? p = l₂.find? p := by
  induction l₁ with
  | nil => rfl
  | cons a l ih =>
      cases ha : p a with
      | true => simp [List.find?_cons_of_pos, ha] at h
      | false =>
          rw [List.find?_cons_of_neg _ (by simp [ha])] at h
          rw [List.cons_append, List.find?_cons_of_neg _ (by simp [ha])]
          exact ih h

theorem find?_map_of_pred_invariant (f : Item → Item) (p : Item → Bool)
    (hp : ∀ i, p (f i) = p i) (l : List Item) :
    (l.map f).find? p = (l.find? p).map f := by
  induction l with
  | nil => rfl
  | cons a l ih =>
      cases ha : p a with
      | true =>
          rw [List.map_cons, List.find?_cons_of_pos _ (by rw [hp]; exact ha),
            List.find?_cons_of_pos _ ha]
          rfl
      | false =>
          rw [List.map_cons, List.find?_cons_of_neg _ (by simp [hp, ha]),
            List.find?_cons_of_neg _ (by simp [ha])]
          exact ih

theorem find?_filter_of_imp (p q : Item → Bool)
    (h : ∀ a, p a = true → q a = true) (l : List Item) :
    (l.filter q).find? p = l.find? p := by
  induction l with
  | nil => rfl
  | cons a l ih =>
      cases hq : q a with
      | true =>
          rw [List.filter_cons_of_pos hq]
          cases ha : p a with
          | true =>
              rw [List.find?_cons_of_pos _ ha, List.find?_cons_of_pos _ ha]
          | false =>
              rw [List.find?_cons_of_neg _ (by simp [ha]),
                List.find?_cons_of_neg _ (by simp [ha])]
              exact ih
      | false =>
          have hpa : p a = false := by
            cases hpa : p a with
            | true => exact absurd (h a hpa) (by simp [hq])
            | false => rfl
          rw [List.filter_cons_of_neg (by simp [hq]),
            List.find?_cons_of_neg _ (by simp [hpa])]
          exact ih

theorem get_map_preserving (r : Repo) (f : Item → Item) (b : Int)
    (hf1 : ∀ i, (f i).barcode = i.barcode)
    (hf2 : ∀ i, i.barcode ≠ b → f i = i) :
    (∀ old, r.find? (fun i => i.barcode == b) = some old →
      get (r.map f) b = .ok (f old)) ∧
    (∀ j, j ≠ b → get (r.map f) j = get r j) := by
  constructor
  · intro old hold
    unfold get
    rw [find?_map_of_pred_invariant f _ (fun i => by simp [hf1]), hold]
    rfl
  · intro j hj
    unfold get
    rw [find?_map_of_pred_invariant f _ (fun i => by simp [hf1])]
    cases hfind : r.find? (fun i => i.barcode == j) with
    | none => rfl
    | some a =>
        have ha : a.barcode = j := by simpa using List.find?_some hfind
        simp only [Option.map_some']
        rw [hf2 a (by rw [ha]; exact hj)]

theorem barcodes_map_of_preserve (f : Item → Item)
    (hf : ∀ i, (f i).barcode = i.barcode) (r : Repo) :
    barcodes (r.map f) = barcodes r := by
  induction r with
  | nil => rfl
  | cons a r ih =>
      simp only [barcodes, List.map_cons] at *
      rw [hf a, ih]

theorem step_nodup {r r' : Repo} (h : Step r r')
    (hr : (barcodes r).Nodup) : (barcodes r').Nodup := by
  cases h with
  | ofCreate n b l =>
      cases hb : hasBarcode r b with
      | true => simpa [create, hb] using hr
      | false =>
          simp only [create, hb, Bool.false_eq_true, if_false]
          simp only [barcodes, List.map_append, List.map_cons, List.map_nil]
          rw [List.nodup_append]
          refine ⟨hr, List.nodup_singleton b, ?_⟩
          intro x hx hx'
          simp only [List.mem_singleton] at hx'
          subst hx'
          obtain ⟨i, hi, hib⟩ := List.mem_map.1 hx
          exact (hasBarcode_false_iff r x).1 hb i hi hib
  | ofModify n b l =>
      cases hf : r.find? (fun i => i.barcode == b) with
      | none => simpa [modify, hf] using hr
      | some i =>
          simp only [modify, hf]
          rw [barcodes_map_of_preserve]
          · exact hr
          · intro j
            by_cases hj : j.barcode = b <;> simp [hj, setNameLoc]
  | ofDelete b =>
      cases hf : r.find? (fun i => i.barcode == b) with
      | none => simpa [delete, hf] using hr
      | some i =>
          simp only [delete, hf]
          exact hr.sublist (List.Sublist.map _ (List.filter_sublist r))
  | ofLog now b =>
      cases hf : r.find? (fun i => i.barcode == b) with
      | none => simpa [log, hf] using hr
      | some i =>
          simp only [log, hf]
          rw [barcodes_map_of_preserve]
          · exact hr
          · intro j
            by_cases hj : j.barcode = b <;> simp [hj, setSeen]

theorem reachable_nodup {r : Repo} (h : Reachable r) :
    (barcodes r).Nodup := by
  induction h with
  | empty => exact List.nodup_nil
  | step _ hstep ih => exact step_nodup hstep ih

theorem createAll_length (reqs : List (String × Int × String)) :
    ∀ r r' : Repo, createAll r reqs = some r' →
      r'.length = r.length + reqs.length := by
  induction reqs with
  | nil =>
      intro r r' h
      simp only [createAll, Option.some_inj] at h
      simp [← h]
  | cons req rest ih =>
      intro r r' h
      unfold createAll at h
      cases hb : hasBarcode r req.2.1 with
      | true => simp [create, hb] at h
      | false =>
          simp only [create, hb, Bool.false_eq_true, if_false] at h
          have := ih _ _ h
          simp only [List.length_append, List.length_cons, List.length_nil] at this
          rw [this]
          simp [List.length_cons]
          omega

/-- C1: In every reachable repository state no two items share a barcode —
after any sequence of create/modify/delete/log operations, list() returns
items with pairwise-distinct barcodes — and after N successful creates
starting from empty, list() contains exactly N items. -/
theorem reachable_distinct_barcodes_and_create_count :
    (∀ r : Repo, Reachable r →
      (list r).Pairwise (fun a b => a.barcode ≠ b.barcode)) ∧
    (∀ (reqs : List (String × Int × String)) (r : Repo),
      createAll [] reqs = some r → (list r).length = reqs.length) := by
  constructor
  · intro r hr
    have h := reachable_nodup hr
    simp only [barcodes, List.Nodup] at h
    exact (List.pairwise_map).1 h
  · intro reqs r h
    have := createAll_length reqs [] r h
    simpa [list] using this

/-- C1 witness: a repository reached by one create has pairwise-distinct
barcodes, and two successful creates from empty yield a list of length 2. -/
theorem reachable_distinct_barcodes_witness :
    (list (create [] "a" 1 "x").2).Pairwise (fun a b => a.barcode ≠ b.barcode) ∧
    (list [Item.mk "a" 1 "x" none, Item.mk "b" 2 "y" none]).length = 2 :=
  ⟨reachable_distinct_barcodes_and_create_count.1 _
      (Reachable.step Reachable.empty (Step.ofCreate [] "a" 1 "x")),
   reachable_distinct_barcodes_and_create_count.2
      [("a", 1, "x"), ("b", 2, "y")] _ (by decide)⟩

/-- C2: create on an existing barcode fails with DuplicateKey and leaves
the repository — in particular the existing item — unchanged; create on a
fresh barcode succeeds, returning the new item with last_seen = none. -/
theorem create_duplicate_fails_fresh_succeeds (r : Repo) (n : String)
    (b : Int) (l : String) :
    (hasBarcode r b = true →
      create r n b l = (.error .DuplicateKey, r) ∧
      get (create r n b l).2 b = get r b) ∧
    (hasBarcode r b = false →
      (create r n b l).1 = .ok ⟨n, b, l, none⟩) := by
  constructor
  · intro h
    constructor
    · simp [create, h]
    · simp [create, h]
  · intro h
    simp [create, h]

/-- C2 witness: creating barcode 1 twice fails the second time with the
state unchanged, while the first create succeeds. -/
theorem create_duplicate_witness :
    create [Item.mk "a" 1 "x" none] "b" 1 "y" =
      (.error .DuplicateKey, [Item.mk "a" 1 "x" none]) ∧
    (create [] "a" 1 "x").1 = .ok ⟨"a", 1, "x", none⟩ :=
  ⟨((create_duplicate_fails_fresh_succeeds [Item.mk "a" 1 "x" none]
      "b" 1 "y").1 (by decide)).1,
   (create_duplicate_fails_fresh_succeeds [] "a" 1 "x").2 (by decide)⟩

/-- C3: get, modify, delete and log on an absent barcode all fail with
NotFound and leave the repository state unchanged. -/
theorem absent_barcode_ops_notFound (r : Repo) (n : String) (b : Int)
    (l : String) (now : Int) (h : hasBarcode r b = false) :
    get r b = .error .NotFound ∧
    modify r n b l = (.error .NotFound, r) ∧
    delete r b = (.error .NotFound, r) ∧
    log r now b = (.error .NotFound, r) := by
  have hf := find?_eq_none_of_not_hasBarcode h
  refine ⟨?_, ?_, ?_, ?_⟩
  · simp [get, hf]
  · simp [modify, hf]
  · simp [delete, hf]
  · simp [log, hf]

/-- C3 witness: on a one-item repository, every operation on the absent
barcode 7 fails with NotFound and leaves the state unchanged. -/
theorem absent_barcode_ops_witness :
    get [Item.mk "a" 1 "x" none] 7 = .error .NotFound ∧
    modify [Item.mk "a" 1 "x" none] "n" 7 "l" =
      (.error .NotFound, [Item.mk "a" 1 "x" none]) ∧
    delete [Item.mk "a" 1 "x" none] 7 =
      (.error .NotFound, [Item.mk "a" 1 "x" none]) ∧
    log [Item.mk "a" 1 "x" none] 100 7 =
      (.error .NotFound, [Item.mk "a" 1 "x" none]) :=
  absent_barcode_ops_notFound [Item.mk "a" 1 "x" none] "n" 7 "l" 100 (by decide)

/-- C4: immediately after a successful create with a fresh barcode, get on
that barcode returns an item with exactly the given name, barcode and
location, and last_seen = none. -/
theorem get_after_create (r : Repo) (n : String) (b : Int) (l : String)
    (h : hasBarcode r b = false) :
    get (create r n b l).2 b = .ok ⟨n, b, l, none⟩ := by
  simp only [create, h, Bool.false_eq_true, if_false]
  unfold get
  rw [find?_append_left_none _ (find?_eq_none_of_not_hasBarcode h)]
  simp [List.find?]

/-- C4 witness: after creating barcode 42 in the empty repository, get 42
returns the created item with last_seen = none. -/
theorem get_after_create_witness :
    get (create [] "item1" 42 "loc1").2 42 = .ok ⟨"item1", 42, "loc1", none⟩ :=
  get_after_create [] "item1" 42 "loc1" (by decide)

/-- C5: for a present barcode, log sets that item's last_seen to the
current time `now` (which is at least any time `t0` observed before the
call, given clock monotonicity), changes no other field of the item, and
leaves every other item unchanged. -/
theorem log_sets_last_seen (r : Repo) (b now t0 : Int)
    (hb : hasBarcode r b = true) (ht : t0 ≤ now) :
    ∃ old : Item, get r b = .ok old ∧
      (log r now b).1 = .ok (setSeen old now) ∧
      get (log r now b).2 b = .ok (setSeen old now) ∧
      (setSeen old now).last_seen = some now ∧
      (∃ t, (setSeen old now).last_seen = some t ∧ t0 ≤ t) ∧
      (setSeen old now).name = old.name ∧
      (setSeen old now).barcode = old.barcode ∧
      (setSeen old now).location = old.location ∧
      (∀ j, j ≠ b → get (log r now b).2 j = get r j) := by
  obtain ⟨old, hold, holdb⟩ := exists_find?_of_hasBarcode hb
  have hmap := get_map_preserving r
    (fun j => if j.barcode == b then setSeen j now else j) b
    (fun i => by by_cases h : i.barcode = b <;> simp [h, setSeen])
    (fun i hi => by simp [hi])
  refine ⟨old, by simp [get, hold], by simp [log, hold], ?_, rfl,
    ⟨now, rfl, ht⟩, rfl, rfl, rfl, ?_⟩
  · have := hmap.1 old hold
    simp only [holdb, beq_self_eq_true, if_true] at this
    simpa [log, hold] using this
  · intro j hj
    have := hmap.2 j hj
    simpa [log, hold] using this

/-- C5 witness: logging barcode 1 at time 50 (with 40 observed before the
call) sets last_seen to 50 and leaves the other fields and items alone. -/
theorem log_sets_last_seen_witness :
    ∃ old : Item, get [Item.mk "a" 1 "x" none, Item.mk "b" 2 "y" none] 1 =
        .ok old ∧
      (log [Item.mk "a" 1 "x" none, Item.mk "b" 2 "y" none] 50 1).1 =
        .ok (setSeen old 50) ∧
      get (log [Item.mk "a" 1 "x" none, Item.mk "b" 2 "y" none] 50 1).2 1 =
        .ok (setSeen old 50) ∧
      (setSeen old 50).last_seen = some 50 ∧
      (∃ t, (setSeen old 50).last_seen = some t ∧ (40 : Int) ≤ t) ∧
      (setSeen old 50).name = old.name ∧
      (setSeen old 50).barcode = old.barcode ∧
      (setSeen old 50).location = old.location ∧
      (∀ j, j ≠ 1 →
        get (log [Item.mk "a" 1 "x" none, Item.mk "b" 2 "y" none] 50 1).2 j =
          get [Item.mk "a" 1 "x" none, Item.mk "b" 2 "y" none] j) :=
  log_sets_last_seen [Item.mk "a" 1 "x" none, Item.mk "b" 2 "y" none] 1 50 40
    (by decide) (by decide)

/-- C6: for a present barcode, modify replaces the item's name and
location with the given values, leaves its last_seen (and barcode)
unchanged, and leaves every other item unchanged. -/
theorem modify_updates_keeps_last_seen (r : Repo) (n : String) (b : Int)
    (l : String) (hb : hasBarcode r b = true) :
    ∃ old : Item, get r b = .ok old ∧
      (modify r n b l).1 = .ok (setNameLoc old n l) ∧
      get (modify r n b l).2 b = .ok (setNameLoc old n l) ∧
      (setNameLoc old n l).name = n ∧
      (setNameLoc old n l).location = l ∧
      (setNameLoc old n l).last_seen = old.last_seen ∧
      (setNameLoc old n l).barcode = old.barcode ∧
      (∀ j, j ≠ b → get (modify r n b l).2 j = get r j) := by
  obtain ⟨old, hold, holdb⟩ := exists_find?_of_hasBarcode hb
  have hmap := get_map_preserving r
    (fun j => if j.barcode == b then setNameLoc j n l else j) b
    (fun i => by by_cases h : i.barcode = b <;> simp [h, setNameLoc])
    (fun i hi => by simp [hi])
  refine ⟨old, by simp [get, hold], by simp [modify, hold], ?_, rfl, rfl,
    rfl, rfl, ?_⟩
  · have := hmap.1 old hold
    simp only [holdb, beq_self_eq_true, if_true] at this
    simpa [modify, hold] using this
  · intro j hj
    have := hmap.2 j hj
    simpa [modify, hold] using this

/-- C6 witness: modifying barcode 1 replaces name and location and keeps
last_seen (here some 9) and the other item unchanged. -/
theorem modify_updates_witness :
    ∃ old : Item, get [Item.mk "a" 1 "x" (some 9), Item.mk "b" 2 "y" none] 1 =
        .ok old ∧
      (modify [Item.mk "a" 1 "x" (some 9), Item.mk "b" 2 "y" none] "n" 1 "z").1 =
        .ok (setNameLoc old "n" "z") ∧
      get (modify [Item.mk "a" 1 "x" (some 9), Item.mk "b" 2 "y" none]
          "n" 1 "z").2 1 = .ok (setNameLoc old "n" "z") ∧
      (setNameLoc old "n" "z").name = "n" ∧
      (setNameLoc old "n" "z").location = "z" ∧
      (setNameLoc old "n" "z").last_seen = old.last_seen ∧
      (setNameLoc old "n" "z").barcode = old.barcode ∧
      (∀ j, j ≠ 1 →
        get (modify [Item.mk "a" 1 "x" (some 9), Item.mk "b" 2 "y" none]
            "n" 1 "z").2 j =
          get [Item.mk "a" 1 "x" (some 9), Item.mk "b" 2 "y" none] j) :=
  modify_updates_keeps_last_seen
    [Item.mk "a" 1 "x" (some 9), Item.mk "b" 2 "y" none] "n" 1 "z" (by decide)

/-- C7: for a present barcode, delete succeeds and returns the removed
item; afterwards get on that barcode fails with NotFound while every other
item is unchanged. -/
theorem delete_removes_item (r : Repo) (b : Int)
    (hb : hasBarcode r b = true) :
    ∃ i : Item, (delete r b).1 = .ok i ∧ i.barcode = b ∧ get r b = .ok i ∧
      get (delete r b).2 b = .error .NotFound ∧
      (∀ j, j ≠ b → get (delete r b).2 j = get r j) := by
  obtain ⟨i, hi, hib⟩ := exists_find?_of_hasBarcode hb
  refine ⟨i, by simp [delete, hi], hib, by simp [get, hi], ?_, ?_⟩
  · simp only [delete, hi]
    unfold get
    have : (r.filter (fun j => !(j.barcode == b))).find?
        (fun i => i.barcode == b) = none := by
      rw [List.find?_eq_none]
      intro x hx
      have := List.of_mem_filter hx
      simpa using this
    rw [this]
  · intro j hj
    simp only [delete, hi]
    unfold get
    rw [find?_filter_of_imp _ _ (fun a ha => ?_)]
    have haj : a.barcode = j := by simpa using ha
    simp [haj, hj]

/-- C7 witness: deleting barcode 1 from a two-item repository returns the
removed item; get 1 then fails with NotFound and item 2 is unchanged. -/
theorem delete_removes_item_witness :
    ∃ i : Item,
      (delete [Item.mk "a" 1 "x" none, Item.mk "b" 2 "y" none] 1).1 = .ok i ∧
      i.barcode = 1 ∧
      get [Item.mk "a" 1 "x" none, Item.mk "b" 2 "y" none] 1 = .ok i ∧
      get (delete [Item.mk "a" 1 "x" none, Item.mk "b" 2 "y" none] 1).2 1 =
        .error .NotFound ∧
      (∀ j, j ≠ 1 →
        get (delete [Item.mk "a" 1 "x" none, Item.mk "b" 2 "y" none] 1).2 j =
          get [Item.mk "a" 1 "x" none, Item.mk "b" 2 "y" none] j) :=
  delete_removes_item [Item.mk "a" 1 "x" none, Item.mk "b" 2 "y" none] 1
    (by decide)

/-- C8 counterexample: the legacy script variant's addItem performs no
barcode validation — on the non-numeric barcode "abc" (parseInt NaN) it
still sends a POST /new request, with the barcode as a raw string. -/
theorem addItem_v2_sends_unparsed_barcode :
    jsParseInt "abc" = none ∧
    addItem_v2 "item1" "abc" "loc1" =
      .sent "/new" ⟨"item1", .jstr "abc", "loc1"⟩ := by
  exact ⟨rfl, rfl⟩

/-- C8 (amended): in the first script variant, addItem and modifyItem
return early and send nothing when parseInt(barcode) is NaN, and when the
barcode parses the JSON body carries it as an integer; the second (legacy)
variant's addItem and modifyItem send the barcode string verbatim with no
client-side validation. -/
theorem client_barcode_validation (name barcode location : String) :
    (jsParseInt barcode = none →
      addItem_v1 name barcode location = .rejected ∧
      modifyItem_v1 name barcode location = .rejected) ∧
    (∀ ib : Int, jsParseInt barcode = some ib →
      addItem_v1 name barcode location =
        .sent "/new" ⟨name, .jnum ib, location⟩ ∧
      (∀ p body, modifyItem_v1 name barcode location = .sent p body →
        body.barcode = .jnum ib)) ∧
    addItem_v2 name barcode location =
      .sent "/new" ⟨name, .jstr barcode, location⟩ ∧
    modifyItem_v2 name barcode location =
      .sent "/modify" ⟨name, .jstr barcode, location⟩ := by
  refine ⟨?_, ?_, rfl, rfl⟩
  · intro h
    constructor
    · simp [addItem_v1, h]
    · simp [modifyItem_v1, h]
  · intro ib h
    constructor
    · simp [addItem_v1, h]
    · intro p body hsent
      simp only [modifyItem_v1, h] at hsent
      cases hloc : actualLocation location with
      | none => simp [hloc] at hsent
      | some loc =>
          simp only [hloc] at hsent
          cases hsent
          rfl

/-- C8 witness: variant-1 addItem rejects the barcode "abc" and sends the
integer 42 for the barcode "42". -/
theorem client_barcode_validation_witness :
    addItem_v1 "n" "abc" "loc" = .rejected ∧
    addItem_v1 "n" "42" "loc" = .sent "/new" ⟨"n", .jnum 42, "loc"⟩ :=
  ⟨((client_barcode_validation "n" "abc" "loc").1 rfl).1,
   ((client_barcode_validation "n" "42" "loc").2.1 42 rfl).1⟩

/-- C9: actualLocation maps the four shorthand codes to their full
location names, but on any other value the switch's final clause
`case _:` evaluates the undeclared identifier `_` and throws a
ReferenceError instead of returning the location unchanged, so
modifyItem throws before sending; addItem applies no mapping and sends
the location verbatim. -/
theorem actualLocation_throws_on_other_values :
    actualLocation "l" = some "Levi Fox Hall Tech Box" ∧
    actualLocation "r" = some "Rig" ∧
    actualLocation "d" = some "Drama Studio Tech Box" ∧
    actualLocation "s" = some "Storage outside Levi Fox Hall Tech Box" ∧
    actualLocation "Main Hall" = none ∧
    modifyItem_v1 "n" "42" "Main Hall" = .threw ∧
    addItem_v1 "n" "42" "Main Hall" =
      .sent "/new" ⟨"n", .jnum 42, "Main Hall"⟩ := by
  exact ⟨rfl, rfl, rfl, rfl, rfl, rfl, rfl⟩

/-- C10: the Last Seen cell shows the locale rendering of the date at
last_seen * 1000 milliseconds if and only if last_seen is truthy, and the
literal 'Never' otherwise; in particular last_seen = 0 renders 'Never',
indistinguishable from a never-logged item. -/
theorem lastSeenCell_truthy_iff (v : Option Int) :
    (lastSeenCellText v = .never ↔ jsTruthy v = false) ∧
    (jsTruthy v = true →
      ∃ t, v = some t ∧ lastSeenCellText v = .localeDate (t * 1000)) ∧
    lastSeenCellText (some 0) = .never ∧
    lastSeenCellText none = .never := by
  refine ⟨?_, ?_, rfl, rfl⟩
  · cases v with
    | none => simp [lastSeenCellText, jsTruthy]
    | some t =>
        by_cases h : t = 0 <;> simp [lastSeenCellText, jsTruthy, h]
  · intro h
    cases v with
    | none => simp [jsTruthy] at h
    | some t =>
        have ht : t ≠ 0 := by simpa [jsTruthy] using h
        exact ⟨t, rfl, by simp [lastSeenCellText, ht]⟩

/-- C10 witness: a truthy last_seen (5) renders as the locale date at 5000
milliseconds. -/
theorem lastSeenCell_truthy_witness :
    ∃ t, (some 5 : Option Int) = some t ∧
      lastSeenCellText (some 5) = .localeDate (t * 1000) :=
  (lastSeenCell_truthy_iff (some 5)).2.1 (by decide)

end Barcode
